import Mathlib

/-!
Verification of the Live Conversational Session core of MicroPhenom-AI-1.

Shallow embedding of the audio codec utilities, the realtime transport
adapters, and the session controller callbacks, translated from the
TypeScript sources:

  * `LiveInterviewSession` component (provider-switching variant), holding
    `createBlob`, `decode`, `decodeAudioData`, `classifyError`, the
    connection-timeout handlers, the mute toggle and the transcript
    accumulator callbacks;
  * `connectAzureRealtimeSession` — two variants exist in the repository:
    the data-channel adapter with a `closeSession` idempotency guard and a
    disconnect grace timer, and the `services/azureRealtimeService.ts`
    variant whose `close()` has no guard.

Numbers that the JavaScript code manipulates as IEEE doubles are modelled
as rationals; every double operation this code performs on the values in
question (multiplication by the power of two 32768, truncation to an
integer, division by 32768) is exact on doubles, so the rational model
computes the same values.
-/

namespace MicroPhenom

/-! ## Diagnostics record and the error classifier

The controller keeps a diagnostics record
`{ key, mic, network, session, message }` whose slots hold the literal
strings the component stores in React state. -/

structure Diagnostics where
  key : String
  mic : String
  network : String
  session : String
  message : String
deriving DecidableEq, Repr

/-- JavaScript `String.prototype.toLowerCase`, modelled characterwise over
the string's characters (the messages involved are ASCII). -/
def jsToLower (s : String) : String :=
  ⟨s.data.map Char.toLower⟩

/-- `sub` occurs as a contiguous run inside `text`. -/
def listContains (text sub : List Char) : Bool :=
  match text with
  | [] => sub.isEmpty
  | _ :: rest => sub.isPrefixOf text || listContains rest sub

/-- JavaScript `String.prototype.includes`: substring containment. -/
def includesSub (text sub : String) : Bool :=
  listContains text.toList sub.toList

/-- The credential-keyword test of `classifyError`
(`text.includes('api key') || text.includes('key') || text.includes('auth')
 || text.includes('permission denied')` on the lowercased message). -/
def credKeywordHit (text : String) : Bool :=
  includesSub text "api key" || includesSub text "key" ||
    includesSub text "auth" || includesSub text "permission denied"

/-- The microphone-keyword test of `classifyError`
(`text.includes('microphone') || text.includes('permission') ||
 text.includes('notallowederror') || text.includes('notfounderror')`). -/
def micKeywordHit (text : String) : Bool :=
  includesSub text "microphone" || includesSub text "permission" ||
    includesSub text "notallowederror" || includesSub text "notfounderror"

/-- `classifyError` from the `LiveInterviewSession` component: lowercases
the raw error message, tests credential keywords first, then microphone
keywords, and defaults to the network category; untouched slots keep their
previous values and `session` is set to `'error'` in every branch. -/
def classifyError (prev : Diagnostics) (rawMessage : String) : Diagnostics :=
  let text := jsToLower rawMessage
  if credKeywordHit text then
    { key := "fail", mic := prev.mic, network := prev.network,
      session := "error",
      message := "API key rejected or missing. Update key in settings." }
  else if micKeywordHit text then
    { key := prev.key, mic := "fail", network := prev.network,
      session := "error",
      message := "Microphone access blocked or unavailable." }
  else
    { key := prev.key, mic := prev.mic, network := "fail",
      session := "error",
      message := "Network/session link failed. Check connection and retry." }

/-- Which of the three diagnostic categories a `classifyError` branch
selected. -/
inductive ErrorCategory
  | credential
  | microphone
  | network
deriving DecidableEq, Repr

/-- The category chosen by `classifyError`, read off from the branch
structure of the source. -/
def classifyCategory (rawMessage : String) : ErrorCategory :=
  let text := jsToLower rawMessage
  if credKeywordHit text then .credential
  else if micKeywordHit text then .microphone
  else .network

/-- `classifyError` marks exactly the slot of `classifyCategory` as
`"fail"`-ed relative to the untouched slots. -/
theorem classifyError_matches_category (prev : Diagnostics) (msg : String) :
    (classifyCategory msg = .credential →
      classifyError prev msg =
        { key := "fail", mic := prev.mic, network := prev.network,
          session := "error",
          message := "API key rejected or missing. Update key in settings." }) ∧
    (classifyCategory msg = .microphone →
      classifyError prev msg =
        { key := prev.key, mic := "fail", network := prev.network,
          session := "error",
          message := "Microphone access blocked or unavailable." }) ∧
    (classifyCategory msg = .network →
      classifyError prev msg =
        { key := prev.key, mic := prev.mic, network := "fail",
          session := "error",
          message := "Network/session link failed. Check connection and retry." }) := by
  unfold classifyCategory classifyError
  by_cases hc : credKeywordHit (jsToLower msg)
  · simp [hc]
  · by_cases hm : micKeywordHit (jsToLower msg) <;> simp [hc, hm]

/-- C10: `classifyError` always returns exactly one of the three
classifications (credential, microphone, network) and tests credential
keywords before microphone keywords: any message whose lowercased text
contains `'api key'`, `'key'`, `'auth'` or `'permission denied'` is
classified as a credential failure (`key := "fail"`), regardless of any
microphone wording it also contains; a message matching neither keyword
set is classified as network. -/
theorem classifyError_precedence (prev : Diagnostics) (msg : String) :
    (classifyCategory msg = .credential ∨ classifyCategory msg = .microphone ∨
      classifyCategory msg = .network) ∧
    (credKeywordHit (jsToLower msg) = true →
      classifyCategory msg = .credential ∧ (classifyError prev msg).key = "fail") ∧
    (credKeywordHit (jsToLower msg) = false → micKeywordHit (jsToLower msg) = false →
      classifyCategory msg = .network ∧ (classifyError prev msg).network = "fail") := by
  refine ⟨?_, ?_, ?_⟩
  · unfold classifyCategory
    by_cases hc : credKeywordHit (jsToLower msg)
    · simp [hc]
    · by_cases hm : micKeywordHit (jsToLower msg) <;> simp [hc, hm]
  · intro hc
    unfold classifyCategory classifyError
    simp [hc]
  · intro hc hm
    unfold classifyCategory classifyError
    simp [hc, hm]

/-- Witness for C10 at a concrete message that contains both credential
wording (`'permission denied'`) and microphone wording (`'microphone'`,
`'permission'`): precedence classifies it as credential. -/
theorem classifyError_precedence_witness :
    credKeywordHit (jsToLower "Microphone permission denied by user") = true ∧
    classifyCategory "Microphone permission denied by user" = .credential ∧
    (classifyError ⟨"unknown", "unknown", "unknown", "connecting", ""⟩
        "Microphone permission denied by user").key = "fail" := by
  have h := classifyError_precedence
    ⟨"unknown", "unknown", "unknown", "connecting", ""⟩
    "Microphone permission denied by user"
  have hc : credKeywordHit (jsToLower "Microphone permission denied by user") = true := by
    decide
  exact ⟨hc, (h.2.1 hc).1, (h.2.1 hc).2⟩

/-! ## Peer-to-peer side-channel events and transcript accumulation (C2)

`dataChannel.onmessage` in `connectAzureRealtimeSession` dispatches the
parsed side-channel messages to the controller callbacks; the controller
(`LiveInterviewSession`, Azure path) buffers AI transcript deltas in
`azureAiBufferRef` and flushes one line on the turn-done event. -/

inductive DataChannelEvent
  | transcriptDelta (delta : String)
  | transcriptDone
  | userTranscription (text : String)
deriving DecidableEq, Repr

structure TranscriptState where
  aiBuffer : String
  transcriptLog : List String
deriving DecidableEq, Repr

/-- JavaScript `String.prototype.trim`, modelled characterwise. -/
def jsTrim (s : String) : String :=
  ⟨((s.data.dropWhile Char.isWhitespace).reverse.dropWhile
      Char.isWhitespace).reverse⟩

/-- Concatenation of a list of strings in order. -/
def jsConcat (l : List String) : String :=
  l.foldr (· ++ ·) ""

/-- `onAiTranscriptDelta`: `azureAiBufferRef.current += delta`. -/
def onAiTranscriptDelta (st : TranscriptState) (delta : String) :
    TranscriptState :=
  { st with aiBuffer := st.aiBuffer ++ delta }

/-- `onAiTurnDone`: trim the buffer, push one `AI:` line when the trimmed
text is nonempty, reset the buffer. -/
def onAiTurnDone (st : TranscriptState) : TranscriptState :=
  let text := jsTrim st.aiBuffer
  { aiBuffer := "",
    transcriptLog :=
      if 0 < text.length then st.transcriptLog ++ ["AI: " ++ text]
      else st.transcriptLog }

/-- `onUserTurn`: push one `Interviewee:` line when the trimmed text is
nonempty (JS truthiness of `text.trim()`). -/
def onUserTurn (st : TranscriptState) (text : String) : TranscriptState :=
  if 0 < (jsTrim text).length then
    { st with transcriptLog := st.transcriptLog ++ ["Interviewee: " ++ jsTrim text] }
  else st

/-- `dataChannel.onmessage` dispatch for the transcript-bearing message
types; `if (delta)` / `if (text)` are JS truthiness checks, i.e. the empty
string is dropped. -/
def dataChannelDispatch (st : TranscriptState) (ev : DataChannelEvent) :
    TranscriptState :=
  match ev with
  | .transcriptDelta delta =>
      if delta.length ≠ 0 then onAiTranscriptDelta st delta else st
  | .transcriptDone => onAiTurnDone st
  | .userTranscription text =>
      if text.length ≠ 0 then onUserTurn st text else st

def runDataChannel (st : TranscriptState) (evs : List DataChannelEvent) :
    TranscriptState :=
  evs.foldl dataChannelDispatch st

theorem append_empty_string (s : String) : s ++ "" = s :=
  congrArg String.mk (List.append_nil s.data)

theorem empty_string_append (s : String) : "" ++ s = s := rfl

theorem string_append_assoc (a b c : String) : a ++ b ++ c = a ++ (b ++ c) :=
  congrArg String.mk (List.append_assoc a.data b.data c.data)

/-- A delta message always extends the buffer by the delta (skipping the
empty string changes nothing, since appending it changes nothing). -/
theorem dataChannelDispatch_delta (st : TranscriptState) (d : String) :
    dataChannelDispatch st (.transcriptDelta d) =
      { st with aiBuffer := st.aiBuffer ++ d } := by
  unfold dataChannelDispatch onAiTranscriptDelta
  by_cases h : d.length = 0
  · have hd : d = "" := by
      cases d with
      | mk data =>
        cases data with
        | nil => rfl
        | cons c cs => simp [String.length] at h
    subst hd
    simp [append_empty_string]
  · simp [h]

/-- Running the delta events accumulates their concatenation in the
buffer and leaves the transcript log untouched. -/
theorem runDataChannel_deltas (deltas : List String) (st : TranscriptState) :
    runDataChannel st (deltas.map .transcriptDelta) =
      { st with aiBuffer := st.aiBuffer ++ jsConcat deltas } := by
  induction deltas generalizing st with
  | nil => simp [runDataChannel, jsConcat, append_empty_string]
  | cons d ds ih =>
      show runDataChannel (dataChannelDispatch st (.transcriptDelta d))
          (ds.map .transcriptDelta) = _
      rw [dataChannelDispatch_delta, ih]
      simp [jsConcat, string_append_assoc]

/-- C2 (amended): a sequence of AI-transcript delta events followed by one
turn-done event appends exactly one transcript line
`"AI: " ++ trim (concat deltas)` when the trimmed concatenation is
nonempty, and appends no line when it trims to the empty string; it never
appends one line per delta. -/
theorem deltaBuffering (st : TranscriptState) (deltas : List String)
    (hbuf : st.aiBuffer = "") :
    runDataChannel st (deltas.map .transcriptDelta ++ [.transcriptDone]) =
      { aiBuffer := "",
        transcriptLog := st.transcriptLog ++
          (if 0 < (jsTrim (jsConcat deltas)).length
           then ["AI: " ++ jsTrim (jsConcat deltas)] else []) } := by
  unfold runDataChannel
  rw [List.foldl_append]
  have h1 : List.foldl dataChannelDispatch st (deltas.map .transcriptDelta) =
      { st with aiBuffer := st.aiBuffer ++ jsConcat deltas } :=
    runDataChannel_deltas deltas st
  rw [h1, hbuf]
  show onAiTurnDone _ = _
  unfold onAiTurnDone
  by_cases h : 0 < (jsTrim (jsConcat deltas)).length
  · simp [empty_string_append, h]
  · simp [empty_string_append, h]

/-- Witness for C2 at the spec's scenario: deltas `"Hel"`, `"lo the"`,
`"re"` then done yield exactly the single line `"AI: Hello there"`. -/
theorem deltaBuffering_witness :
    (runDataChannel ⟨"", []⟩
        (["Hel", "lo the", "re"].map DataChannelEvent.transcriptDelta ++
          [.transcriptDone]) =
      { aiBuffer := "",
        transcriptLog := [] ++
          (if 0 < (jsTrim (jsConcat ["Hel", "lo the", "re"])).length
           then ["AI: " ++ jsTrim (jsConcat ["Hel", "lo the", "re"])] else []) }) ∧
    jsTrim (jsConcat ["Hel", "lo the", "re"]) = "Hello there" := by
  refine ⟨deltaBuffering ⟨"", []⟩ ["Hel", "lo the", "re"] rfl, ?_⟩
  rfl

/-- Counterexample to C2 as stated: the whitespace-only delta `" "`
followed by a turn-done event appends zero transcript lines, not the one
line `"AI: " ++ trim " "` the claim requires for every delta sequence. -/
theorem deltaBuffering_counterexample :
    (runDataChannel ⟨"", []⟩
        [.transcriptDelta " ", .transcriptDone]).transcriptLog = [] ∧
      ([] : List String) ≠ ["AI: " ++ jsTrim (jsConcat [" "])] := by
  constructor
  · rfl
  · simp

/-! ## Mute toggle and the audio-capture handler (C3)

`scriptProcessor.onaudioprocess` is installed once, inside the adapter's
`onopen` callback created during the mount effect.  The effect's
dependency array is `[settings]`, so toggling `isMuted` re-renders the
component but does not re-run the effect: the installed handler keeps
reading the `isMuted` binding of the render in which the effect ran
(`false`, the `useState(false)` initial value).  The model therefore
carries both the UI-visible `isMuted` value and the value the installed
handler closed over. -/

structure MuteModel where
  uiIsMuted : Bool
  handlerIsMuted : Bool
  sentFrames : Nat
  micLevelUpdates : Nat
deriving DecidableEq, Repr

/-- At mount: `useState(false)`, effect runs, handler closure captures the
current (`false`) value of `isMuted`. -/
def initialMuteModel : MuteModel :=
  { uiIsMuted := false, handlerIsMuted := false, sentFrames := 0,
    micLevelUpdates := 0 }

/-- The mute button: `setIsMuted(!isMuted)`.  `settings` is unchanged, so
the effect does not re-run and the captured value is not refreshed. -/
def toggleMute (m : MuteModel) : MuteModel :=
  { m with uiIsMuted := !m.uiIsMuted }

/-- `onaudioprocess`: `if (isMuted) return;` reads the captured binding,
then encodes and transmits the frame. -/
def onAudioProcess (m : MuteModel) : MuteModel :=
  if m.handlerIsMuted then m else { m with sentFrames := m.sentFrames + 1 }

/-- The 100 ms `volumeInterval` sampler, independent of mute state. -/
def volumeIntervalTick (m : MuteModel) : MuteModel :=
  { m with micLevelUpdates := m.micLevelUpdates + 1 }

/-- C3 at the failing input: toggle mute once after connect, then one
captured audio frame.  The UI shows muted, the mic-level sampler still
updates, and the frame is nevertheless transmitted (`sentFrames = 1`,
not `0`), because the installed `onaudioprocess` closed over the initial
`isMuted = false`. -/
theorem mute_stale_closure_failing_input :
    (toggleMute initialMuteModel).uiIsMuted = true ∧
    (onAudioProcess (toggleMute initialMuteModel)).sentFrames = 1 ∧
    (volumeIntervalTick
        (onAudioProcess (toggleMute initialMuteModel))).micLevelUpdates = 1 := by
  decide

/-! ## Connection timeout handler (C4)

Both provider paths arm a 15-second `window.setTimeout` whose callback
only calls `setStatus('error')` and `setDiagnostics` (network slot to
`'fail'`, session slot to `'error'`); neither timeout callback touches
`sessionRef` or calls the adapter's `close()`.  The timer is cleared in
`onOpen`, so it fires only when still armed. -/

structure AttemptState where
  status : String
  network : String
  session : String
  timeoutArmed : Bool
  adapterCloseCalls : Nat
deriving DecidableEq, Repr

/-- Session attempt right after arming the connection timeout, before any
`onOpen` or error. -/
def initialAttempt : AttemptState :=
  { status := "connecting", network := "checking", session := "connecting",
    timeoutArmed := true, adapterCloseCalls := 0 }

/-- The `connectTimeoutRef` callback (a one-shot timer: it can only run
while armed, and firing consumes it). -/
def connectTimeoutFire (st : AttemptState) : AttemptState :=
  if st.timeoutArmed then
    { st with
        status := "error", network := "fail", session := "error",
        timeoutArmed := false }
  else st

/-- `onOpen`: clears the pending connection timeout and marks the session
connected. -/
def onOpenClearTimeout (st : AttemptState) : AttemptState :=
  { st with
      status := "connected", network := "ok", session := "live",
      timeoutArmed := false }

/-- C4 (amended): when neither `onOpen` nor an error has arrived and the
timeout fires, the controller transitions `connectionStatus` to ERROR
exactly once with a network-category diagnostic (`network = 'fail'`,
`session = 'error'`), but it does **not** invoke the adapter's `close()`:
the close-call count is unchanged.  A second fire is a no-op, and a
timeout cleared by `onOpen` never fires. -/
theorem connectTimeout_error_without_close (st : AttemptState)
    (harmed : st.timeoutArmed = true) :
    (connectTimeoutFire st).status = "error" ∧
    (connectTimeoutFire st).network = "fail" ∧
    (connectTimeoutFire st).session = "error" ∧
    (connectTimeoutFire st).adapterCloseCalls = st.adapterCloseCalls ∧
    connectTimeoutFire (connectTimeoutFire st) = connectTimeoutFire st ∧
    connectTimeoutFire (onOpenClearTimeout st) = onOpenClearTimeout st := by
  unfold connectTimeoutFire onOpenClearTimeout
  simp [harmed]

/-- Witness for C4 at the initial attempt state. -/
theorem connectTimeout_error_without_close_witness :
    (connectTimeoutFire initialAttempt).status = "error" ∧
    (connectTimeoutFire initialAttempt).network = "fail" ∧
    (connectTimeoutFire initialAttempt).session = "error" ∧
    (connectTimeoutFire initialAttempt).adapterCloseCalls =
      initialAttempt.adapterCloseCalls ∧
    connectTimeoutFire (connectTimeoutFire initialAttempt) =
      connectTimeoutFire initialAttempt ∧
    connectTimeoutFire (onOpenClearTimeout initialAttempt) =
      onOpenClearTimeout initialAttempt :=
  connectTimeout_error_without_close initialAttempt rfl

/-- Counterexample to C4 as stated: after the timeout fires on an attempt
where neither `onOpen` nor an error occurred, the adapter's `close()` has
been invoked zero times, not exactly once — the timeout handler never
touches the adapter handle. -/
theorem connectTimeout_no_close_counterexample :
    (connectTimeoutFire initialAttempt).status = "error" ∧
    (connectTimeoutFire initialAttempt).adapterCloseCalls = 0 ∧
    (connectTimeoutFire initialAttempt).adapterCloseCalls ≠ 1 := by
  decide

/-! ## Session-slot regression on close (C8)

The Azure-path `onClose` handler's first statement is
`setIsActive(false)` — an identifier defined nowhere in the component
(its state setters are `setStatus`, `setDuration`, `setIsMuted`,
`setVolumeLevel`, `setDiagnostics`), so the handler throws a
`ReferenceError` there and never reaches its guarded `setDiagnostics`
(`prev.session === 'error' ? prev : { ...prev, session: 'closed', ... }`):
the diagnostics record is left unchanged.  The Gemini-path `onclose`
sets `session: 'closed'` unconditionally. -/

/-- Outcome of invoking a controller callback: whether it threw, and the
diagnostics record it left behind. -/
structure HandlerOutcome where
  threw : Bool
  diagnostics : Diagnostics
deriving DecidableEq, Repr

/-- The functional updater the Azure-path `onClose` passes to
`setDiagnostics`:
`(prev) => prev.session === 'error' ? prev : { ...prev, session: 'closed',
message: 'Session closed.' }`.  Dead code at runtime — see
`azureOnCloseRun`. -/
def azureOnCloseUpdater (d : Diagnostics) : Diagnostics :=
  if d.session = "error" then d
  else { d with session := "closed", message := "Session closed." }

/-- Invoking the Azure-path `onClose` handler: `setIsActive(false)`
references an undefined identifier and throws a `ReferenceError` before
the `setDiagnostics(azureOnCloseUpdater)` statement, so the handler
terminates exceptionally with the diagnostics record unchanged. -/
def azureOnCloseRun (d : Diagnostics) : HandlerOutcome :=
  { threw := true, diagnostics := d }

/-- Gemini path `onclose` (diagnostics part; this handler has no
`setIsActive` call and runs to completion). -/
def geminiOnCloseHandler (d : Diagnostics) : Diagnostics :=
  { d with session := "closed", message := "Session closed." }

/-- C8 (amended): on the Azure path the `session` slot never regresses
from the terminal value `'error'` on a later close event — in fact the
close handler leaves the whole diagnostics record unchanged (and reports
no closure), because it throws a `ReferenceError` on the undefined
`setIsActive` before its guarded `setDiagnostics` runs; the updater that
guarded call would have applied preserves `'error'` as well.  On the
Gemini path, by contrast, the `onclose` handler unconditionally writes
`'closed'`, overwriting a prior `'error'`. -/
theorem sessionSlot_nonregression (d : Diagnostics) :
    (azureOnCloseRun d).threw = true ∧
    (azureOnCloseRun d).diagnostics = d ∧
    (d.session = "error" → (azureOnCloseRun d).diagnostics.session = "error") ∧
    (d.session = "error" → azureOnCloseUpdater d = d) ∧
    (geminiOnCloseHandler d).session = "closed" := by
  unfold azureOnCloseRun azureOnCloseUpdater geminiOnCloseHandler
  refine ⟨rfl, rfl, fun h => h, fun h => ?_, rfl⟩
  simp [h]

/-- Witness for C8: an errored diagnostics record survives the Azure
close handler (which throws) unchanged, and its never-reached updater
would also have preserved it. -/
theorem sessionSlot_nonregression_witness :
    (azureOnCloseRun
        ⟨"ok", "ok", "fail", "error", "Connection timed out."⟩).diagnostics =
      ⟨"ok", "ok", "fail", "error", "Connection timed out."⟩ ∧
    (azureOnCloseRun
        ⟨"ok", "ok", "fail", "error",
          "Connection timed out."⟩).diagnostics.session = "error" ∧
    azureOnCloseUpdater
        ⟨"ok", "ok", "fail", "error", "Connection timed out."⟩ =
      ⟨"ok", "ok", "fail", "error", "Connection timed out."⟩ :=
  ⟨(sessionSlot_nonregression
      ⟨"ok", "ok", "fail", "error", "Connection timed out."⟩).2.1,
   (sessionSlot_nonregression
      ⟨"ok", "ok", "fail", "error", "Connection timed out."⟩).2.2.1 rfl,
   (sessionSlot_nonregression
      ⟨"ok", "ok", "fail", "error", "Connection timed out."⟩).2.2.2.1 rfl⟩

/-- Counterexample to C8 as stated: on the Gemini path, a close event
arriving after the `session` slot has reached the terminal value
`'error'` overwrites it with `'closed'`. -/
theorem sessionSlot_regression_counterexample :
    (geminiOnCloseHandler
        ⟨"ok", "ok", "fail", "error",
          "Connection timed out. Verify network and API key."⟩).session =
      "closed" ∧ ("closed" : String) ≠ "error" := by
  constructor
  · rfl
  · decide

/-! ## Peer-connection health state machine and teardown (C5, C7)

From the data-channel adapter variant of `connectAzureRealtimeSession`
(the one with `isClosed`, `disconnectTimer` and the Firefox URL fix):
`closeSession` is guarded by `isClosed`, and
`connection.onconnectionstatechange` implements the grace window. -/

structure PeerConn where
  connectionState : String
  disconnectTimerArmed : Bool
  isClosed : Bool
  errorMessages : List String
  onCloseCount : Nat
deriving DecidableEq, Repr

/-- `closeSession`: returns immediately when already closed; otherwise
clears the grace timer, closes the channel, stops the tracks, closes the
connection and fires `onClose` once. -/
def closeSession (st : PeerConn) : PeerConn :=
  if st.isClosed then st
  else
    { st with
        isClosed := true, disconnectTimerArmed := false,
        onCloseCount := st.onCloseCount + 1 }

/-- `connection.onconnectionstatechange`: the four `if`s of the source,
run in order against the new connection state. -/
def onConnectionStateChange (st : PeerConn) (newState : String) : PeerConn :=
  let st1 := { st with connectionState := newState }
  let st2 :=
    if st1.connectionState = "connected" ∧ st1.disconnectTimerArmed then
      { st1 with disconnectTimerArmed := false }
    else st1
  let st3 :=
    if st2.connectionState = "failed" then
      closeSession
        { st2 with
            errorMessages :=
              st2.errorMessages ++ ["Realtime peer connection failed."] }
    else st2
  let st4 :=
    if st3.connectionState = "disconnected" ∧ ¬st3.disconnectTimerArmed then
      { st3 with disconnectTimerArmed := true }
    else st3
  if st4.connectionState = "closed" then closeSession st4 else st4

/-- The 5-second grace-timer callback: runs only while the timer is armed
(clearing the timer cancels it), disarms itself, and when the connection
is still `'disconnected'` raises the error and closes. -/
def disconnectTimerFire (st : PeerConn) : PeerConn :=
  if st.disconnectTimerArmed then
    let st1 := { st with disconnectTimerArmed := false }
    if st1.connectionState = "disconnected" then
      closeSession
        { st1 with
            errorMessages :=
              st1.errorMessages ++ ["Realtime peer connection disconnected."] }
    else st1
  else st

/-- Per-call effects of `close()` from `services/azureRealtimeService.ts`:
it closes the data channel (inside try/catch), stops every local and
sender track, closes the peer connection and invokes `callbacks.onClose()`
— with no guard against running twice. -/
structure ServiceHandle where
  trackStopRounds : Nat
  connectionCloseCalls : Nat
  onCloseCount : Nat
deriving DecidableEq, Repr

def serviceClose (st : ServiceHandle) : ServiceHandle :=
  { trackStopRounds := st.trackStopRounds + 1,
    connectionCloseCalls := st.connectionCloseCalls + 1,
    onCloseCount := st.onCloseCount + 1 }

/-- C5 (amended): on the data-channel adapter variant, `closeSession` is
idempotent — two calls in succession fire `onClose` exactly once and the
second call is a no-op.  (The `services/azureRealtimeService.ts` variant
throws no exception either, but fires `onClose` on every call.) -/
theorem closeSession_idempotent (st : PeerConn) (h : st.isClosed = false) :
    (closeSession st).onCloseCount = st.onCloseCount + 1 ∧
    closeSession (closeSession st) = closeSession st ∧
    (closeSession (closeSession st)).onCloseCount = st.onCloseCount + 1 := by
  unfold closeSession
  simp [h]

/-- Witness for C5 on a freshly opened handle. -/
theorem closeSession_idempotent_witness :
    (closeSession ⟨"connected", false, false, [], 0⟩).onCloseCount = 0 + 1 ∧
    closeSession (closeSession ⟨"connected", false, false, [], 0⟩) =
      closeSession ⟨"connected", false, false, [], 0⟩ ∧
    (closeSession
        (closeSession ⟨"connected", false, false, [], 0⟩)).onCloseCount =
      0 + 1 :=
  closeSession_idempotent ⟨"connected", false, false, [], 0⟩ rfl

/-- Counterexample to C5 as stated: on the handle returned by
`services/azureRealtimeService.ts`, calling `close()` twice in succession
invokes `onClose` twice, not exactly once. -/
theorem serviceClose_not_idempotent_counterexample :
    (serviceClose (serviceClose ⟨0, 0, 0⟩)).onCloseCount = 2 ∧
      (2 : Nat) ≠ 1 := by
  decide

/-- Azure-path `onError` in the controller: keyword classification of the
adapter's error message into the diagnostics record. -/
def azureOnErrorHandler (d : Diagnostics) (message : String) : Diagnostics :=
  let lowered := jsToLower message
  if includesSub lowered "configured" || includesSub lowered "token" ||
      includesSub lowered "key" then
    { d with key := "fail", session := "error", message := message }
  else if includesSub lowered "microphone" ||
      includesSub lowered "permission" ||
      includesSub lowered "notallowederror" then
    { d with mic := "fail", session := "error", message := message }
  else
    { d with network := "fail", session := "error", message := message }

/-- C7: from a connected, unclosed session with no pending grace timer:
entering `'disconnected'` arms the grace timer without raising an error;
if the connection returns to `'connected'` before the timer fires, the
timer is cancelled, no error is ever raised and the session stays open;
if the timer fires while still `'disconnected'`, exactly one error
(`'Realtime peer connection disconnected.'`, which the controller
classifies as network-category) is raised and the session closes with one
`onClose`. -/
theorem graceWindow_state_machine (st : PeerConn) (d : Diagnostics)
    (_hconn : st.connectionState = "connected")
    (harm : st.disconnectTimerArmed = false)
    (hclosed : st.isClosed = false) :
    (onConnectionStateChange st "disconnected").disconnectTimerArmed = true ∧
    (onConnectionStateChange st "disconnected").errorMessages =
      st.errorMessages ∧
    (onConnectionStateChange st "disconnected").isClosed = false ∧
    (onConnectionStateChange
        (onConnectionStateChange st "disconnected") "connected" =
      { st with connectionState := "connected" }) ∧
    (disconnectTimerFire
          (onConnectionStateChange st "disconnected")).errorMessages =
      st.errorMessages ++ ["Realtime peer connection disconnected."] ∧
    (disconnectTimerFire
          (onConnectionStateChange st "disconnected")).isClosed = true ∧
    (disconnectTimerFire
          (onConnectionStateChange st "disconnected")).onCloseCount =
      st.onCloseCount + 1 ∧
    (azureOnErrorHandler d "Realtime peer connection disconnected.").network =
      "fail" := by
  have hdis : onConnectionStateChange st "disconnected" =
      { st with connectionState := "disconnected",
                disconnectTimerArmed := true } := by
    unfold onConnectionStateChange
    simp [harm]
  refine ⟨?_, ?_, ?_, ?_, ?_, ?_, ?_, ?_⟩
  · rw [hdis]
  · rw [hdis]
  · rw [hdis]; exact hclosed
  · rw [hdis]
    unfold onConnectionStateChange
    simp [harm]
  · rw [hdis]
    unfold disconnectTimerFire closeSession
    simp [hclosed]
  · rw [hdis]
    unfold disconnectTimerFire closeSession
    simp [hclosed]
  · rw [hdis]
    unfold disconnectTimerFire closeSession
    simp [hclosed]
  · unfold azureOnErrorHandler
    simp [show (includesSub
        (jsToLower "Realtime peer connection disconnected.") "configured" ||
      includesSub (jsToLower "Realtime peer connection disconnected.")
        "token" ||
      includesSub (jsToLower "Realtime peer connection disconnected.")
        "key") = false from by decide,
      show (includesSub
        (jsToLower "Realtime peer connection disconnected.") "microphone" ||
      includesSub (jsToLower "Realtime peer connection disconnected.")
        "permission" ||
      includesSub (jsToLower "Realtime peer connection disconnected.")
        "notallowederror") = false from by decide]

/-- Witness for C7 on a freshly connected session. -/
theorem graceWindow_state_machine_witness :
    (onConnectionStateChange
        ⟨"connected", false, false, [], 0⟩ "disconnected").disconnectTimerArmed
      = true ∧
    (disconnectTimerFire
        (onConnectionStateChange
          ⟨"connected", false, false, [], 0⟩ "disconnected")).onCloseCount
      = 0 + 1 := by
  have h := graceWindow_state_machine ⟨"connected", false, false, [], 0⟩
    ⟨"ok", "ok", "ok", "live", ""⟩ rfl rfl rfl
  exact ⟨h.1, h.2.2.2.2.2.2.1⟩

/-! ## Microphone release on exit paths (C9)

`connectAzureRealtimeSession` acquires the microphone after the broker
call and before SDP negotiation; the only code that stops the acquired
tracks is `closeSession`/`close()`, reachable only through the returned
handle or the callbacks of the established connection.  A throw between
acquisition and the return statement therefore leaves the tracks running,
and neither the controller's `catch` block (`setStatus`/`setDiagnostics`
only) nor the unmount cleanup (timers, audio contexts, `sessionRef` —
never set on this path) stops them. -/

structure AzureSetupEnv where
  tokenOk : Bool
  sdpOk : Bool
deriving DecidableEq, Repr

structure SetupTrace where
  micAcquired : Nat
  micStopped : Nat
  threw : Bool
deriving DecidableEq, Repr

/-- Resource trace of one `connectAzureRealtimeSession` run: a broker
failure throws before `getUserMedia`; an SDP-negotiation failure throws
after the stream was acquired without any `track.stop()`; on success the
handle is returned with the tracks still live (they are stopped later by
`closeSession`). -/
def connectAzureRealtimeSessionTrace (env : AzureSetupEnv) : SetupTrace :=
  if !env.tokenOk then { micAcquired := 0, micStopped := 0, threw := true }
  else if !env.sdpOk then
    { micAcquired := 1, micStopped := 0, threw := true }
  else { micAcquired := 1, micStopped := 0, threw := false }

/-- The controller's `catch` block for a setup throw: `setStatus('error')`
and `setDiagnostics(classifyError(e))` — no resource release. -/
def startSessionCatch (tr : SetupTrace) : SetupTrace := tr

/-- The unmount cleanup for a failed setup: clears the timers, closes the
audio contexts (which does not stop `MediaStream` tracks) and would close
`sessionRef.current`, which was never assigned because the adapter threw
before returning a handle. -/
def unmountCleanupAfterThrow (tr : SetupTrace) : SetupTrace := tr

/-- C9 at the failing input: broker token obtained, SDP negotiation fails.
The adapter throws after acquiring the microphone, and after the
controller's catch block and the unmount cleanup the acquired track has
never been stopped — a live microphone track is left open, violating the
release-on-every-exit-path guarantee. -/
theorem mic_leak_on_sdp_failure :
    (unmountCleanupAfterThrow (startSessionCatch
        (connectAzureRealtimeSessionTrace ⟨true, false⟩))).micAcquired = 1 ∧
    (unmountCleanupAfterThrow (startSessionCatch
        (connectAzureRealtimeSessionTrace ⟨true, false⟩))).micStopped = 0 ∧
    (connectAzureRealtimeSessionTrace ⟨true, false⟩).threw = true := by
  decide

/-! ## Playback scheduling watermark (C6)

The `onmessage` audio path keeps a monotone watermark `nextStartTimeRef`:
for each inbound chunk it executes
`nextStartTime = Math.max(nextStartTime, currentTime)`,
starts the chunk at `nextStartTime`, and advances the watermark by the
decoded buffer's duration. -/

structure Chunk where
  arrivalClock : ℚ
  duration : ℚ
deriving DecidableEq, Repr

/-- The scheduling loop, returning each chunk's (start, end) times. -/
def scheduleChunks (watermark : ℚ) : List Chunk → List (ℚ × ℚ)
  | [] => []
  | c :: rest =>
      let s := max watermark c.arrivalClock
      (s, s + c.duration) :: scheduleChunks (s + c.duration) rest

theorem scheduleChunks_length (w : ℚ) (chunks : List Chunk) :
    (scheduleChunks w chunks).length = chunks.length := by
  induction chunks generalizing w with
  | nil => rfl
  | cons c rest ih => simp [scheduleChunks, ih]

/-- The computed start time of chunk `n+1` is the maximum of chunk `n`'s
computed end time and the clock at which chunk `n+1` was handled. -/
theorem scheduleChunks_start_eq (chunks : List Chunk) (n : ℕ) (w : ℚ)
    (h : n + 1 < chunks.length) :
    ((scheduleChunks w chunks).getD (n + 1) (0, 0)).1 =
      max ((scheduleChunks w chunks).getD n (0, 0)).2
        ((chunks.getD (n + 1) ⟨0, 0⟩).arrivalClock) := by
  induction n generalizing w chunks with
  | zero =>
      match chunks, h with
      | c1 :: c2 :: rest, _ =>
        simp [scheduleChunks]
  | succ n ih =>
      match chunks, h with
      | c :: rest, h =>
        have hrest : n + 1 < rest.length := by
          simpa using Nat.lt_of_succ_lt_succ h
        simpa [scheduleChunks] using
          ih rest (max w c.arrivalClock + c.duration) hrest

/-- C6: each chunk's computed start time equals
`max(current playback clock, previous chunk's end time)`; consequently the
start of chunk `n+1` is never less than the end of chunk `n`, and when the
chunk arrives back-to-back (its handling clock at most one tick past the
previous end) its start exceeds that end by at most one tick. -/
theorem playback_watermark (w tick : ℚ) (chunks : List Chunk) (n : ℕ)
    (h : n + 1 < chunks.length) :
    ((scheduleChunks w chunks).getD (n + 1) (0, 0)).1 =
      max ((scheduleChunks w chunks).getD n (0, 0)).2
        ((chunks.getD (n + 1) ⟨0, 0⟩).arrivalClock) ∧
    ((scheduleChunks w chunks).getD n (0, 0)).2 ≤
      ((scheduleChunks w chunks).getD (n + 1) (0, 0)).1 ∧
    (0 ≤ tick →
      (chunks.getD (n + 1) ⟨0, 0⟩).arrivalClock ≤
        ((scheduleChunks w chunks).getD n (0, 0)).2 + tick →
      ((scheduleChunks w chunks).getD (n + 1) (0, 0)).1 ≤
        ((scheduleChunks w chunks).getD n (0, 0)).2 + tick) := by
  have heq := scheduleChunks_start_eq chunks n w h
  refine ⟨heq, ?_, ?_⟩
  · rw [heq]
    exact le_max_left _ _
  · intro htick harrival
    rw [heq]
    exact max_le (by linarith) harrival

/-- Witness for C6 on a concrete burst: two one-second chunks, the second
handled at clock 1 (back-to-back within a tick of 1/100). -/
theorem playback_watermark_witness :
    ((scheduleChunks 0 [⟨0, 1⟩, ⟨1, 1⟩]).getD 1 (0, 0)).1 =
      max ((scheduleChunks 0 [⟨0, 1⟩, ⟨1, 1⟩]).getD 0 (0, 0)).2
        (([⟨0, 1⟩, ⟨1, 1⟩] : List Chunk).getD 1 ⟨0, 0⟩).arrivalClock ∧
    ((scheduleChunks 0 [⟨0, 1⟩, ⟨1, 1⟩]).getD 0 (0, 0)).2 ≤
      ((scheduleChunks 0 [⟨0, 1⟩, ⟨1, 1⟩]).getD 1 (0, 0)).1 ∧
    (0 ≤ (1 / 100 : ℚ) →
      (([⟨0, 1⟩, ⟨1, 1⟩] : List Chunk).getD 1 ⟨0, 0⟩).arrivalClock ≤
        ((scheduleChunks 0 [⟨0, 1⟩, ⟨1, 1⟩]).getD 0 (0, 0)).2 + 1 / 100 →
      ((scheduleChunks 0 [⟨0, 1⟩, ⟨1, 1⟩]).getD 1 (0, 0)).1 ≤
        ((scheduleChunks 0 [⟨0, 1⟩, ⟨1, 1⟩]).getD 0 (0, 0)).2 + 1 / 100) :=
  playback_watermark 0 (1 / 100) [⟨0, 1⟩, ⟨1, 1⟩] 0 (by decide)

/-! ## Audio codec utilities (C1)

`createBlob` quantizes `Float32Array` samples into an `Int16Array` by
`int16[i] = data[i] * 32768` (store semantics: truncate toward zero, then
wrap modulo 2^16 into the signed range), serializes the buffer
little-endian, and base64-encodes it (`btoa`); `decode` is `atob` plus
`charCodeAt`; `decodeAudioData` reinterprets the bytes as interleaved
signed 16-bit samples, de-interleaves per channel and divides by 32768.
Samples are modelled as rationals: every floating-point operation this
path performs (multiplying by the power of two 32768, truncating,
dividing by 32768) is exact on the IEEE doubles involved. -/

/-- Truncation toward zero — the `ToIntegerOrInfinity` step of a
JavaScript `Int16Array` store. -/
def jsTrunc (q : ℚ) : ℤ := if 0 ≤ q then ⌊q⌋ else ⌈q⌉

/-- Wrap of an integer into the signed 16-bit range — the modular step of
an `Int16Array` store. -/
def toInt16 (n : ℤ) : ℤ :=
  let r := n % 65536
  if r < 32768 then r else r - 65536

/-- The quantization `int16[i] = data[i] * 32768` of `createBlob`
(no clamping). -/
def quantizeSample (s : ℚ) : ℤ := toInt16 (jsTrunc (s * 32768))

/-- Little-endian byte pair of a stored 16-bit value — the layout read
back by `new Uint8Array(int16.buffer)`. -/
def int16LEBytes (v : ℤ) : List ℕ :=
  let u := (v % 65536).toNat
  [u % 256, u / 256]

/-- The interleaved little-endian byte serialization of the quantized
samples. -/
def createBlobBytes : List ℚ → List ℕ
  | [] => []
  | s :: rest => int16LEBytes (quantizeSample s) ++ createBlobBytes rest

def base64Alphabet : List Char :=
  "ABCDEFGHIJKLMNOPQRSTUVWXYZabcdefghijklmnopqrstuvwxyz0123456789+/".toList

def sextetChar (n : ℕ) : Char := base64Alphabet.getD n '='

def charSextet (c : Char) : Option ℕ := base64Alphabet.findIdx? (· = c)

/-- `btoa` grouping: three bytes become four alphabet characters, a
final group of one or two bytes is padded with `=`. -/
def encodeBase64Chunks : List ℕ → List Char
  | [] => []
  | [b0] => [sextetChar (b0 / 4), sextetChar (b0 % 4 * 16), '=', '=']
  | [b0, b1] =>
      [sextetChar (b0 / 4), sextetChar (b0 % 4 * 16 + b1 / 16),
        sextetChar (b1 % 16 * 4), '=']
  | b0 :: b1 :: b2 :: rest =>
      sextetChar (b0 / 4) :: sextetChar (b0 % 4 * 16 + b1 / 16) ::
        sextetChar (b1 % 16 * 4 + b2 / 64) :: sextetChar (b2 % 64) ::
          encodeBase64Chunks rest

def btoa (bytes : List ℕ) : String := ⟨encodeBase64Chunks bytes⟩

/-- `atob` grouping: four characters at a time, with `=`-padding allowed
only in the final group; characters outside the alphabet fail (a
`DecodeError`). -/
def decodeBase64Chunks : List Char → Option (List ℕ)
  | [] => some []
  | c0 :: c1 :: c2 :: c3 :: rest =>
      match charSextet c0, charSextet c1 with
      | some s0, some s1 =>
          if c2 = '=' then
            if c3 = '=' ∧ rest = [] then some [s0 * 4 + s1 / 16] else none
          else
            match charSextet c2 with
            | some s2 =>
                if c3 = '=' then
                  if rest = [] then
                    some [s0 * 4 + s1 / 16, s1 % 16 * 16 + s2 / 4]
                  else none
                else
                  match charSextet c3, decodeBase64Chunks rest with
                  | some s3, some bs =>
                      some ((s0 * 4 + s1 / 16) :: (s1 % 16 * 16 + s2 / 4) ::
                        (s2 % 4 * 64 + s3) :: bs)
                  | _, _ => none
            | none => none
      | _, _ => none
  | _ => none

/-- The repository's `decode`: `atob` plus per-character `charCodeAt`,
yielding the raw bytes, or a `DecodeError` on malformed base64. -/
def decodeBase64 (s : String) : Option (List ℕ) :=
  decodeBase64Chunks s.data

structure AudioBlob where
  data : String
  mimeType : String
deriving DecidableEq, Repr

/-- `createBlob`. -/
def createBlob (samples : List ℚ) : AudioBlob :=
  { data := btoa (createBlobBytes samples),
    mimeType := "audio/pcm;rate=16000" }

/-- `new Int16Array(data.buffer)`: little-endian reinterpretation of the
byte sequence as signed 16-bit integers (a trailing odd byte is
ignored, as the typed-array view truncates). -/
def bytesToInt16s : List ℕ → List ℤ
  | lo :: hi :: rest =>
      (let u := lo + 256 * hi
       if u < 32768 then (u : ℤ) else (u : ℤ) - 65536) :: bytesToInt16s rest
  | _ => []

structure AudioBufferModel where
  sampleRate : ℚ
  channelData : List (List ℚ)
deriving DecidableEq, Repr

/-- `decodeAudioData`: `frameCount = dataInt16.length / numChannels`,
then `channelData[ch][i] = dataInt16[i * numChannels + ch] / 32768`. -/
def decodeAudioData (bytes : List ℕ) (sampleRate : ℚ) (numChannels : ℕ) :
    AudioBufferModel :=
  let dataInt16 := bytesToInt16s bytes
  let frameCount := dataInt16.length / numChannels
  { sampleRate := sampleRate,
    channelData := (List.range numChannels).map fun ch =>
      (List.range frameCount).map fun i =>
        (dataInt16.getD (i * numChannels + ch) 0 : ℚ) / 32768 }

theorem charSextet_sextetChar : ∀ n < 64, charSextet (sextetChar n) = some n := by
  decide

theorem sextetChar_ne_pad : ∀ n < 64, (sextetChar n = '=') = False := by
  decide

/-- `atob` inverts `btoa` on byte sequences. -/
theorem decodeBase64Chunks_encodeBase64Chunks (bytes : List ℕ)
    (h : ∀ b ∈ bytes, b < 256) :
    decodeBase64Chunks (encodeBase64Chunks bytes) = some bytes := by
  match bytes with
  | [] => rfl
  | [b0] =>
      have hb0 : b0 < 256 := h b0 (by simp)
      have h1 : b0 / 4 < 64 := by omega
      have h2 : b0 % 4 * 16 < 64 := by omega
      simp [encodeBase64Chunks, decodeBase64Chunks,
        charSextet_sextetChar _ h1, charSextet_sextetChar _ h2]
      omega
  | [b0, b1] =>
      have hb0 : b0 < 256 := h b0 (by simp)
      have hb1 : b1 < 256 := h b1 (by simp)
      have h1 : b0 / 4 < 64 := by omega
      have h2 : b0 % 4 * 16 + b1 / 16 < 64 := by omega
      have h3 : b1 % 16 * 4 < 64 := by omega
      simp [encodeBase64Chunks, decodeBase64Chunks,
        charSextet_sextetChar _ h1, charSextet_sextetChar _ h2,
        charSextet_sextetChar _ h3, sextetChar_ne_pad _ h3]
      omega
  | b0 :: b1 :: b2 :: b3 :: rest' =>
      have hb0 : b0 < 256 := h b0 (by simp)
      have hb1 : b1 < 256 := h b1 (by simp)
      have hb2 : b2 < 256 := h b2 (by simp)
      have h1 : b0 / 4 < 64 := by omega
      have h2 : b0 % 4 * 16 + b1 / 16 < 64 := by omega
      have h3 : b1 % 16 * 4 + b2 / 64 < 64 := by omega
      have h4 : b2 % 64 < 64 := by omega
      have ih := decodeBase64Chunks_encodeBase64Chunks (b3 :: rest')
        (fun b hb => h b (by simp at hb ⊢; tauto))
      simp [encodeBase64Chunks, decodeBase64Chunks,
        charSextet_sextetChar _ h1, charSextet_sextetChar _ h2,
        charSextet_sextetChar _ h3, charSextet_sextetChar _ h4,
        sextetChar_ne_pad _ h3, sextetChar_ne_pad _ h4, ih]
      omega
  | [b0, b1, b2] =>
      have hb0 : b0 < 256 := h b0 (by simp)
      have hb1 : b1 < 256 := h b1 (by simp)
      have hb2 : b2 < 256 := h b2 (by simp)
      have h1 : b0 / 4 < 64 := by omega
      have h2 : b0 % 4 * 16 + b1 / 16 < 64 := by omega
      have h3 : b1 % 16 * 4 + b2 / 64 < 64 := by omega
      have h4 : b2 % 64 < 64 := by omega
      simp [encodeBase64Chunks, decodeBase64Chunks,
        charSextet_sextetChar _ h1, charSextet_sextetChar _ h2,
        charSextet_sextetChar _ h3, charSextet_sextetChar _ h4,
        sextetChar_ne_pad _ h3, sextetChar_ne_pad _ h4]
      omega

/-- Reading back one stored 16-bit value from its little-endian byte
pair recovers the value. -/
theorem bytesToInt16s_cons (v : ℤ) (rest : List ℕ)
    (hlo : -32768 ≤ v) (hhi : v < 32768) :
    bytesToInt16s (int16LEBytes v ++ rest) = v :: bytesToInt16s rest := by
  show bytesToInt16s
      ((v % 65536).toNat % 256 :: (v % 65536).toNat / 256 :: rest) = _
  rw [show bytesToInt16s
        ((v % 65536).toNat % 256 :: (v % 65536).toNat / 256 :: rest) =
      (let u := (v % 65536).toNat % 256 + 256 * ((v % 65536).toNat / 256)
       if u < 32768 then (u : ℤ) else (u : ℤ) - 65536) ::
        bytesToInt16s rest from rfl]
  refine congrArg (· :: bytesToInt16s rest) ?_
  dsimp only
  split <;> omega

theorem int16LEBytes_lt (v : ℤ) : ∀ b ∈ int16LEBytes v, b < 256 := by
  intro b hb
  unfold int16LEBytes at hb
  simp at hb
  rcases hb with h | h <;> omega

theorem createBlobBytes_lt (samples : List ℚ) :
    ∀ b ∈ createBlobBytes samples, b < 256 := by
  induction samples with
  | nil => intro b hb; cases hb
  | cons s rest ih =>
      intro b hb
      unfold createBlobBytes at hb
      rcases List.mem_append.mp hb with h | h
      · exact int16LEBytes_lt _ b h
      · exact ih b h

theorem createBlobBytes_length (samples : List ℚ) :
    (createBlobBytes samples).length = 2 * samples.length := by
  induction samples with
  | nil => rfl
  | cons s rest ih =>
      show (int16LEBytes (quantizeSample s) ++ createBlobBytes rest).length = _
      simp [int16LEBytes, ih, List.length_cons]
      ring

/-- Every quantized sample lands in the signed 16-bit range. -/
theorem quantizeSample_range (s : ℚ) :
    -32768 ≤ quantizeSample s ∧ quantizeSample s < 32768 := by
  unfold quantizeSample toInt16
  dsimp only
  split <;> omega

/-- The wrap is the identity on values already in the signed range. -/
theorem toInt16_of_range (v : ℤ) (h1 : -32768 ≤ v) (h2 : v < 32768) :
    toInt16 v = v := by
  unfold toInt16
  dsimp only
  split <;> omega

/-- Truncation toward zero moves a rational by less than one. -/
theorem jsTrunc_le_bounds (q : ℚ) :
    q - 1 ≤ (jsTrunc q : ℚ) ∧ (jsTrunc q : ℚ) ≤ q + 1 := by
  unfold jsTrunc
  rcases le_or_lt 0 q with h | h
  · rw [if_pos h]
    have h1 : (⌊q⌋ : ℚ) ≤ q := Int.floor_le q
    have h2 : q - 1 < (⌊q⌋ : ℚ) := Int.sub_one_lt_floor q
    exact ⟨by linarith, by linarith⟩
  · rw [if_neg (not_le.mpr h)]
    have h1 : q ≤ (⌈q⌉ : ℚ) := Int.le_ceil q
    have h2 : (⌈q⌉ : ℚ) < q + 1 := Int.ceil_lt_add_one q
    exact ⟨by linarith, by linarith⟩

/-- On samples in `[-1, 1)` the truncated value lies in the signed 16-bit
range, so the `Int16Array` store does not wrap. -/
theorem quantizeSample_noWrap (s : ℚ) (h1 : -1 ≤ s) (h2 : s < 1) :
    quantizeSample s = jsTrunc (s * 32768) := by
  have hq1 : (-32768 : ℚ) ≤ s * 32768 := by linarith
  have hq2 : s * 32768 < 32768 := by linarith
  have hlo : -32768 ≤ jsTrunc (s * 32768) := by
    unfold jsTrunc
    rcases le_or_lt 0 (s * 32768) with h | h
    · rw [if_pos h]
      exact Int.le_floor.mpr (by exact_mod_cast hq1)
    · rw [if_neg (not_le.mpr h)]
      have h3 : (s * 32768 : ℚ) ≤ (⌈s * 32768⌉ : ℚ) := Int.le_ceil _
      have h4 : ((-32768 : ℤ) : ℚ) ≤ (⌈s * 32768⌉ : ℚ) := by
        push_cast
        linarith
      exact_mod_cast h4
  have hhi : jsTrunc (s * 32768) < 32768 := by
    unfold jsTrunc
    rcases le_or_lt 0 (s * 32768) with h | h
    · rw [if_pos h]
      exact Int.floor_lt.mpr (by exact_mod_cast hq2)
    · rw [if_neg (not_le.mpr h)]
      have h3 : (⌈s * 32768⌉ : ℤ) ≤ 0 :=
        Int.ceil_le.mpr (by exact_mod_cast le_of_lt h)
      omega
  exact toInt16_of_range _ hlo hhi

/-- The per-sample round-trip error bound: for a sample in `[-1, 1)`, the
decoded value `quantize(s) / 32768` is within `1/32768` of `s`. -/
theorem quantize_error (s : ℚ) (h1 : -1 ≤ s) (h2 : s < 1) :
    |(quantizeSample s : ℚ) / 32768 - s| ≤ 1 / 32768 := by
  rw [quantizeSample_noWrap s h1 h2]
  have hl := (jsTrunc_le_bounds (s * 32768)).1
  have hr := (jsTrunc_le_bounds (s * 32768)).2
  rw [abs_le]
  constructor <;> linarith

/-- Deserializing the serialized quantized samples recovers them. -/
theorem bytesToInt16s_createBlobBytes (samples : List ℚ) :
    bytesToInt16s (createBlobBytes samples) =
      samples.map quantizeSample := by
  induction samples with
  | nil => rfl
  | cons s rest ih =>
      show bytesToInt16s
        (int16LEBytes (quantizeSample s) ++ createBlobBytes rest) = _
      rw [bytesToInt16s_cons _ _ (quantizeSample_range s).1
        (quantizeSample_range s).2, ih]
      rfl

theorem getD_of_lt {α : Type} (l : List α) (j : ℕ) (d : α)
    (h : j < l.length) : l.getD j d = l[j] := by
  simp [List.getD, List.getElem?_eq_getElem h]

theorem getD_range_map {α : Type} (f : ℕ → α) (n i : ℕ) (d : α)
    (h : i < n) : ((List.range n).map f).getD i d = f i := by
  rw [getD_of_lt _ _ _ (by simpa using h)]
  simp

theorem getD_map_of_lt {α β : Type} (g : α → β) (l : List α) (j : ℕ)
    (d : α) (d' : β) (h : j < l.length) :
    (l.map g).getD j d' = g (l.getD j d) := by
  rw [getD_of_lt _ _ _ (by simpa using h), getD_of_lt _ _ _ h]
  simp

/-- C1 (amended): for every sample sequence with each sample in `[-1, 1)`
(a sample exactly equal to `1` wraps — see the counterexample), any
output sample rate, and any positive channel count dividing the sample
count (equivalently, the encoded byte length is exactly divisible by
`channelCount * 2`), base64-decoding the payload of `createBlob` and
converting it with `decodeAudioData` reconstructs each sample to within
`1/32768`: channel `ch`, frame `i` carries input sample
`i * channelCount + ch`. -/
theorem codec_roundtrip (samples : List ℚ)
    (hs : ∀ s ∈ samples, -1 ≤ s ∧ s < 1)
    (c : ℕ) (hc : 0 < c) (hdvd : c ∣ samples.length) (rate : ℚ) :
    ∃ bytes, decodeBase64 (createBlob samples).data = some bytes ∧
      bytes.length % (c * 2) = 0 ∧
      (decodeAudioData bytes rate c).sampleRate = rate ∧
      ∀ ch, ch < c → ∀ i, i * c + ch < samples.length →
        |(((decodeAudioData bytes rate c).channelData.getD ch []).getD i 0) -
            samples.getD (i * c + ch) 0| ≤ 1 / 32768 := by
  obtain ⟨k, hk⟩ := hdvd
  refine ⟨createBlobBytes samples, ?_, ?_, rfl, ?_⟩
  · exact decodeBase64Chunks_encodeBase64Chunks _ (createBlobBytes_lt samples)
  · rw [createBlobBytes_length, hk, show 2 * (c * k) = c * 2 * k by ring,
      Nat.mul_mod_right]
  · intro ch hch i hi
    have hik : i < k := by
      rcases Nat.lt_or_ge i k with h | h
      · exact h
      · exfalso
        have h2 : c * k ≤ i * c := by
          rw [mul_comm]
          exact Nat.mul_le_mul_right c h
        have h3 : i * c + ch < i * c := lt_of_lt_of_le (hk ▸ hi) h2
        exact absurd h3 (Nat.not_lt.mpr (Nat.le_add_right _ _))
    have hframe : (bytesToInt16s (createBlobBytes samples)).length / c = k := by
      rw [bytesToInt16s_createBlobBytes, List.length_map, hk,
        Nat.mul_div_cancel_left k hc]
    have houter :
        (decodeAudioData (createBlobBytes samples) rate c).channelData.getD
            ch [] =
          (List.range
              ((bytesToInt16s (createBlobBytes samples)).length / c)).map
            fun i =>
              ((bytesToInt16s (createBlobBytes samples)).getD
                  (i * c + ch) 0 : ℚ) / 32768 := by
      show ((List.range c).map _).getD ch [] = _
      rw [getD_range_map _ _ _ _ hch]
    rw [houter, hframe, getD_range_map _ _ _ _ hik,
      bytesToInt16s_createBlobBytes,
      getD_map_of_lt quantizeSample samples (i * c + ch) 0 0 hi]
    have hmem : samples.getD (i * c + ch) 0 ∈ samples := by
      rw [getD_of_lt _ _ _ hi]
      exact List.getElem_mem hi
    exact quantize_error _ (hs _ hmem).1 (hs _ hmem).2

/-- Witness for C1 at samples `[1/2, -1/2]`, mono, 24 kHz output rate. -/
theorem codec_roundtrip_witness :
    ∃ bytes,
      decodeBase64 (createBlob [(1 : ℚ) / 2, -(1 : ℚ) / 2]).data =
        some bytes ∧
      bytes.length % (1 * 2) = 0 ∧
      (decodeAudioData bytes 24000 1).sampleRate = 24000 ∧
      ∀ ch, ch < 1 →
        ∀ i, i * 1 + ch < ([(1 : ℚ) / 2, -(1 : ℚ) / 2] : List ℚ).length →
          |(((decodeAudioData bytes 24000 1).channelData.getD ch []).getD
                i 0) -
              ([(1 : ℚ) / 2, -(1 : ℚ) / 2] : List ℚ).getD (i * 1 + ch) 0| ≤
            1 / 32768 :=
  codec_roundtrip [(1 : ℚ) / 2, -(1 : ℚ) / 2]
    (by intro s hs; fin_cases hs <;> norm_num) 1 (by decide)
    (by decide) 24000

/-- Counterexample to C1 as stated over the closed interval `[-1, 1]`:
the sample `1` (mono, byte length `2` divisible by `channelCount * 2 = 2`)
quantizes to `32768`, wraps to `-32768` in the `Int16Array` store, and
decodes to `-1` — a reconstruction error of `2`, not within `1/32768`. -/
theorem codec_roundtrip_counterexample :
    ((-1 : ℚ) ≤ 1 ∧ (1 : ℚ) ≤ 1) ∧
    quantizeSample 1 = -32768 ∧
    (createBlob [(1 : ℚ)]).data = "AIA=" ∧
    decodeBase64 "AIA=" = some [0, 128] ∧
    ((decodeAudioData [0, 128] 24000 1).channelData.getD 0 []).getD 0 0 =
      -1 ∧
    ¬(|(-1 : ℚ) - ([(1 : ℚ)] : List ℚ).getD 0 0| ≤ 1 / 32768) := by
  have htr : jsTrunc ((1 : ℚ) * 32768) = 32768 := by
    unfold jsTrunc
    norm_num
  have hq : quantizeSample 1 = -32768 := by
    unfold quantizeSample
    rw [htr]
    decide
  have hbytes : createBlobBytes [(1 : ℚ)] = [0, 128] := by
    show int16LEBytes (quantizeSample 1) ++ [] = _
    rw [hq]
    decide
  have hbi : bytesToInt16s [0, 128] = [-32768] := by decide
  have hcd : (decodeAudioData [0, 128] 24000 1).channelData =
      [[((-32768 : ℤ) : ℚ) / 32768]] := by
    show (List.range 1).map
        (fun ch => (List.range ((bytesToInt16s [0, 128]).length / 1)).map
          fun i => ((bytesToInt16s [0, 128]).getD (i * 1 + ch) 0 : ℚ) / 32768)
      = _
    rw [hbi]
    rfl
  have hval :
      ((decodeAudioData [0, 128] 24000 1).channelData.getD 0 []).getD 0 0 =
        -1 := by
    rw [hcd]
    norm_num [List.getD_cons_zero]
  refine ⟨by norm_num, hq, ?_, by decide, hval, by norm_num⟩
  show btoa (createBlobBytes [(1 : ℚ)]) = _
  rw [hbytes]
  decide

end MicroPhenom
